import Mathlib

/-
Verification development for findbadseqs.py: a script that audits a schema's
auto-increment sequence wiring and emits corrective SQL.

The catalog is modelled as a read-only snapshot:
  * `sequences` - relnames of pg_class rows with relkind = 'S';
  * `defaults`  - the joined pg_attrdef/pg_class/pg_attribute rows
                  (relname, attname, adsrc) consulted by sequence_currently_used;
  * `owners`    - the (sequence, table, column) ownership links consulted by
                  pg_get_serial_sequence (stored here by current sequence name;
                  a rename follows the link, as ownership is tracked by oid).
Python exceptions relevant to the script are the ValueError raised by the
nextval-regex failure and the DatabaseError the driver catches.
-/

structure AttrDefRow where
  relname : String
  attname : String
  adsrc : String
deriving DecidableEq, Repr

structure OwnerRow where
  seqname : String
  table : String
  column : String
deriving DecidableEq, Repr

structure Catalog where
  sequences : List String
  defaults : List AttrDefRow
  owners : List OwnerRow
deriving DecidableEq, Repr

inductive PyError where
  | valueError (msg : String)
  | databaseError (msg : String)
deriving DecidableEq, Repr

deriving instance DecidableEq for Except

/-- Does the first list occur as a prefix of the second? -/
def beginsWith : List Char → List Char → Bool
  | [], _ => true
  | _ :: _, [] => false
  | a :: as, b :: bs => a = b && beginsWith as bs

/-- Does the first list occur as a contiguous sublist of the second? -/
def containsSub (needle : List Char) : List Char → Bool
  | [] => beginsWith needle []
  | c :: t => beginsWith needle (c :: t) || containsSub needle t

/-- The `adsrc ILIKE '%nextval%'` filter of sequence_currently_used:
case-insensitive substring test for "nextval". -/
def ilikeNextval (s : String) : Bool :=
  containsSub "nextval".data (s.data.map Char.toLower)

/-- Consume the `\(+` part of the nextval regex: count leading opening
parentheses and return the rest. -/
def dropParens : List Char → Nat × List Char
  | '(' :: t => let p := dropParens t; (p.1 + 1, p.2)
  | l => (0, l)

/-- The `([^']+)'` part of the nextval regex: a nonempty maximal run of
non-quote characters that must be followed by a closing quote. -/
def parseGroup (l : List Char) : Option (List Char) :=
  let run := l.takeWhile (fun c => !(c = '\''))
  let rest := l.dropWhile (fun c => !(c = '\''))
  if run.isEmpty then none
  else
    match rest with
    | '\'' :: _ => some run
    | _ => none

def pubChars : List Char := ['p', 'u', 'b', 'l', 'i', 'c']

/-- The `(?:public.)?([^']+)'` part of the nextval regex.  The `.` is an
unescaped regex dot, so the optional group is the literal "public" followed by
ANY single character other than a newline; the regex engine tries the greedy
reading first and backtracks to the group-less reading if the rest fails. -/
def parsePublicOpt (l : List Char) : Option (List Char) :=
  if beginsWith pubChars l then
    match l.drop 6 with
    | [] => parseGroup l
    | c :: rest =>
      if c = '\n' then parseGroup l
      else
        match parseGroup rest with
        | some g => some g
        | none => parseGroup l
  else parseGroup l

def nvChars : List Char := ['n', 'e', 'x', 't', 'v', 'a', 'l']

/-- `re.match("nextval\(+'(?:public.)?([^']+)'", adsrc)`, returning group 1:
anchored at the start, the literal "nextval", one or more `(`, a quote, the
optional public-dot group, then a nonempty quoted name. -/
def nextvalRegexMatch (adsrc : String) : Option String :=
  if beginsWith nvChars adsrc.data then
    let p := dropParens (adsrc.data.drop 7)
    if p.1 = 0 then none
    else
      match p.2 with
      | '\'' :: rest2 => (parsePublicOpt rest2).map (fun g => String.mk g)
      | _ => none
  else none

/-- ColumnInformation.sequence_expected_by_django: `'%s_%s_seq' % (table, column)`. -/
def sequence_expected_by_django (table column : String) : String :=
  table ++ "_" ++ column ++ "_seq"

/-- Sequence.exists as it behaves in the running script, where the module-global
cursor and self.cursor are the same object: true iff a relkind-'S' catalog row
with exactly this relname is present. -/
def sequence_exists (cat : Catalog) (name : String) : Bool :=
  cat.sequences.contains name

/-- Sequence.exists with cursor identity made explicit.  Line 29 of the source
runs `cursor.execute(query, params)` on the module-global `cursor`, while line
30 fetches from `self.cursor`.  The fresh result rows therefore land in the
global cursor's buffer; the fetch reads the constructed cursor's buffer, which
is stale whenever the two differ. -/
def Sequence_exists_run (cat : Catalog) (name : String) (globalId selfId : Nat)
    (selfStaleBuffer : List String) : Bool :=
  let freshRows := cat.sequences.filter (fun r => r = name)
  let fetched := if selfId = globalId then freshRows.head? else selfStaleBuffer.head?
  fetched.isSome

/-- Python str.split(sep) for a single-character separator. -/
def splitChars (sep : Char) : List Char → List (List Char)
  | [] => [[]]
  | c :: cs =>
    let r := splitChars sep cs
    if c = sep then [] :: r
    else
      match r with
      | h :: t => (c :: h) :: t
      | [] => [[c]]

/-- SQL LIKE matching: `%` matches any run of characters, `_` matches exactly
one character, anything else matches itself. -/
def likeMatch : List Char → List Char → Bool
  | [], s => s.isEmpty
  | q :: ps, s =>
    if q = '%' then s.tails.any (fun t => likeMatch ps t)
    else
      match s with
      | [] => false
      | c :: t => (q = '_' || q = c) && likeMatch ps t

/-- `'_'.join(seq_parts[-3:])` for `seq_parts = name.split('_')`. -/
def likeSuffixChars (name : String) : List Char :=
  let parts := splitChars '_' name.data
  List.intercalate ['_'] (parts.drop (parts.length - 3))

/-- Sequence.get_similar_sequence_names: relnames of relkind-'S' rows matching
`LIKE '%_' + '_'.join(seq_parts[-3:])`. -/
def get_similar_sequence_names (cat : Catalog) (name : String) : List String :=
  cat.sequences.filter (fun r => likeMatch ('%' :: '_' :: likeSuffixChars name) r.data)

/-- ColumnInformation.sequence_according_to_postgres: pg_get_serial_sequence,
i.e. the sequence the engine records as owned by (table, column), or none. -/
def sequence_according_to_postgres (cat : Catalog) (table column : String) :
    Option String :=
  (cat.owners.find? (fun o => o.table = table && o.column = column)).map
    (fun o => o.seqname)

/-- ColumnInformation.sequence_currently_used: select the default-expression
rows for (table, column) whose adsrc contains "nextval" case-insensitively;
anything but exactly one row yields None; a row whose adsrc fails the anchored
nextval regex raises ValueError; otherwise the captured sequence name. -/
def sequence_currently_used (cat : Catalog) (table column : String) :
    Except PyError (Option String) :=
  let rows := cat.defaults.filter
    (fun r => r.relname = table && r.attname = column && ilikeNextval r.adsrc)
  match rows with
  | [row] =>
    match nextvalRegexMatch row.adsrc with
    | some name => .ok (some name)
    | none => .error (.valueError
        ("nextval regex failed. " ++ table ++ "." ++ column ++ " adsrc: " ++ row.adsrc))
  | _ => .ok none

/-- ColumnInformation.get_sequence_permission_fixing_sql. -/
def get_sequence_permission_fixing_sql (table column seqname : String) : String :=
  "ALTER SEQUENCE " ++ seqname ++ " OWNED BY " ++ table ++ "." ++ column ++ ";"

/-- The repair statements, by shape.  `renderRepair` turns each into exactly the
SQL string the source builds for it. -/
inductive Repair where
  | rename (oldName newName : String)
  | setDefault (table column seqName : String)
  | setval (seqName column table : String)
  | ownedBy (seqName table column : String)
deriving DecidableEq, Repr

/-- The format strings of findbadseqs.py lines 106, 107/110, 111 and 80. -/
def renderRepair : Repair → String
  | .rename o n => "ALTER SEQUENCE " ++ o ++ " RENAME TO " ++ n ++ ";"
  | .setDefault t c s =>
      "ALTER TABLE " ++ t ++ " ALTER COLUMN " ++ c ++ " SET DEFAULT nextval('" ++ s ++ "');"
  | .setval s c t =>
      "SELECT setval('" ++ s ++ "', coalesce(max(\"" ++ c ++ "\"), 1), max(\"" ++
        c ++ "\") IS NOT null) FROM " ++ t ++ ";"
  | .ownedBy s t c => get_sequence_permission_fixing_sql t c s

/-- ColumnInformation.suggest_sequence_repair_sql, statement shapes.  Mirrors
lines 82-118: early return when the current sequence is undetermined; early
return when neither the expected nor the current sequence exists; no structural
statement when the names agree; rename+set-default when the expected sequence
is missing; set-default+setval when both exist; finally, when pg_get_serial_sequence
reports nothing, append the ownership fix for the result of a fresh
sequence_currently_used() call (line 116). -/
def suggest_repairs (cat : Catalog) (table column : String) :
    Except PyError (List Repair) :=
  match sequence_currently_used cat table column with
  | .error e => .error e
  | .ok none => .ok []
  | .ok (some cur) =>
    let dj := sequence_expected_by_django table column
    if !sequence_exists cat dj && !sequence_exists cat cur then .ok []
    else
      let result : List Repair :=
        if dj = cur then []
        else if !sequence_exists cat dj then
          [.rename cur dj, .setDefault table column dj]
        else
          [.setDefault table column dj, .setval dj column table]
      match sequence_according_to_postgres cat table column with
      | some _ => .ok result
      | none =>
        match sequence_currently_used cat table column with
        | .ok (some cur2) => .ok (result ++ [.ownedBy cur2 table column])
        | .ok none => .error (.valueError "AttributeError: NoneType has no attribute name")
        | .error e => .error e

/-- The SQL-string output of suggest_sequence_repair_sql: each repair rendered
with the source's format string. -/
def suggest_sequence_repair_sql (cat : Catalog) (table column : String) :
    Except PyError (List String) :=
  (suggest_repairs cat table column).map (fun rs => rs.map renderRepair)

/-- check_pk_field, lines 121-140: runs the reconciliation inside a transaction,
wraps a nonempty result in BEGIN/COMMIT, catches (only) DatabaseError, and then
rolls back.  The returned Bool records whether the `transaction.rollback()`
line was reached: a non-DatabaseError exception (the regex ValueError)
propagates before it.  The `'taggit_tag'` interactive-debugger hook of line 126
is a leftover and is not modelled. -/
def check_pk_field (cat : Catalog) (table column : String) :
    Except PyError (List String) × Bool :=
  match suggest_sequence_repair_sql cat table column with
  | .ok sql => (.ok (if sql.isEmpty then [] else ["BEGIN;"] ++ sql ++ ["COMMIT;"]), true)
  | .error (.databaseError _) => (.ok [], true)
  | .error (.valueError m) => (.error (.valueError m), false)

/-- The decompiled default expression Postgres stores after
`ALTER TABLE .. SET DEFAULT nextval('<seq>')`. -/
def defaultSrc (seqName : String) : String :=
  "nextval('" ++ seqName ++ "'::regclass)"

/-- Modelled from the spec: the repository never applies its suggested SQL (it
is advisory output), so the documented effect of each statement on the catalog
is modelled here for the idempotence claim.  RENAME renames the sequence and
its ownership links (ownership is tracked by oid) when the old name exists;
SET DEFAULT replaces the column's default rows with the stored nextval default;
setval changes only the sequence's value, not the catalog; OWNED BY binds the
named sequence to the column when that sequence exists, and a statement naming
a nonexistent sequence errors out, leaving the catalog unchanged. -/
def applyRepair (cat : Catalog) : Repair → Catalog
  | .rename oldName newName =>
    if cat.sequences.contains oldName then
      { sequences := cat.sequences.map (fun s => if s = oldName then newName else s)
        defaults := cat.defaults
        owners := cat.owners.map
          (fun o => if o.seqname = oldName then { o with seqname := newName } else o) }
    else cat
  | .setDefault table column seqName =>
    { cat with defaults :=
        AttrDefRow.mk table column (defaultSrc seqName) ::
          cat.defaults.filter (fun r => !(r.relname = table && r.attname = column)) }
  | .setval _ _ _ => cat
  | .ownedBy seqName table column =>
    if cat.sequences.contains seqName then
      { cat with owners :=
          OwnerRow.mk seqName table column ::
            cat.owners.filter (fun o => !(o.seqname = seqName)) }
    else cat

def applyRepairs (cat : Catalog) (rs : List Repair) : Catalog :=
  rs.foldl applyRepair cat

/- Concrete catalogs used by witnesses and counterexamples. -/

/-- The spec's concrete scenario, with the engine declaring no sequence. -/
def catOrdersRename : Catalog :=
  ⟨["orders_id_seq1"], [⟨"orders", "id", "nextval('orders_id_seq1')"⟩], []⟩

/-- The spec's concrete scenario, with the engine declaring the current sequence. -/
def catOrdersRenameOwned : Catalog :=
  ⟨["orders_id_seq1"], [⟨"orders", "id", "nextval('orders_id_seq1')"⟩],
    [⟨"orders_id_seq1", "orders", "id"⟩]⟩

/-- Both the expected and the current sequence exist; the expected one is owned. -/
def catOrdersRepoint : Catalog :=
  ⟨["orders_id_seq", "orders_id_seq1"],
    [⟨"orders", "id", "nextval('orders_id_seq1')"⟩],
    [⟨"orders_id_seq", "orders", "id"⟩]⟩

/-- Expected and current name agree and the sequence exists, but no ownership
is declared. -/
def catShared : Catalog :=
  ⟨["t_c_seq"], [⟨"t", "c", "nextval('t_c_seq')"⟩], []⟩

/-- Expected and current name agree, the sequence exists and is owned. -/
def catSharedOwned : Catalog :=
  ⟨["t_c_seq"], [⟨"t", "c", "nextval('t_c_seq')"⟩], [⟨"t_c_seq", "t", "c"⟩]⟩

/-- A column whose default expression contains "nextval" but does not match the
anchored regex (the call is wrapped in an extra leading parenthesis pair). -/
def catBadDefault : Catalog :=
  ⟨[], [⟨"t", "c", "(nextval('x'))"⟩], []⟩

/-- C1: when the currently-referenced sequence exists, the convention-expected
sequence does not, and the names differ, the output is exactly the RENAME
statement followed by the SET DEFAULT statement, plus the trailing ownership
statement exactly when the engine declares no sequence. -/
theorem c1_rename_branch_statements (cat : Catalog) (table column cur : String)
    (hcur : sequence_currently_used cat table column = .ok (some cur))
    (hcurex : sequence_exists cat cur = true)
    (hdjex : sequence_exists cat (sequence_expected_by_django table column) = false)
    (hne : sequence_expected_by_django table column ≠ cur) :
    suggest_sequence_repair_sql cat table column =
      .ok (["ALTER SEQUENCE " ++ cur ++ " RENAME TO " ++
              sequence_expected_by_django table column ++ ";",
            "ALTER TABLE " ++ table ++ " ALTER COLUMN " ++ column ++
              " SET DEFAULT nextval('" ++ sequence_expected_by_django table column ++ "');"] ++
        (if (sequence_according_to_postgres cat table column).isSome then []
         else [get_sequence_permission_fixing_sql table column cur])) := by
  unfold suggest_sequence_repair_sql suggest_repairs
  rw [hcur]
  cases hpg : sequence_according_to_postgres cat table column with
  | some s =>
    simp [hdjex, hcurex, hne, hpg, renderRepair, Except.map]
  | none =>
    simp [hdjex, hcurex, hne, hpg, renderRepair, Except.map,
      get_sequence_permission_fixing_sql]

/-- Witness for C1: the spec's concrete scenario (table orders, column id,
current default orders_id_seq1 which exists, expected orders_id_seq missing,
ownership declared) yields exactly the two statements. -/
theorem c1_rename_branch_statements_witness :
    sequence_currently_used catOrdersRenameOwned "orders" "id" = .ok (some "orders_id_seq1") ∧
    sequence_exists catOrdersRenameOwned "orders_id_seq1" = true ∧
    sequence_exists catOrdersRenameOwned (sequence_expected_by_django "orders" "id") = false ∧
    sequence_expected_by_django "orders" "id" ≠ "orders_id_seq1" ∧
    suggest_sequence_repair_sql catOrdersRenameOwned "orders" "id" =
      .ok (["ALTER SEQUENCE " ++ "orders_id_seq1" ++ " RENAME TO " ++
              sequence_expected_by_django "orders" "id" ++ ";",
            "ALTER TABLE " ++ "orders" ++ " ALTER COLUMN " ++ "id" ++
              " SET DEFAULT nextval('" ++ sequence_expected_by_django "orders" "id" ++ "');"] ++
        (if (sequence_according_to_postgres catOrdersRenameOwned "orders" "id").isSome then []
         else [get_sequence_permission_fixing_sql "orders" "id" "orders_id_seq1"])) :=
  ⟨by decide, by decide, by decide, by decide,
    c1_rename_branch_statements catOrdersRenameOwned "orders" "id" "orders_id_seq1"
      (by decide) (by decide) (by decide) (by decide)⟩

/-- C2: when the convention-expected and currently-referenced sequences both
exist and differ, the output is exactly the SET DEFAULT statement followed by
the guarded setval statement — whose value expression is coalesce(max(column), 1)
and whose is-consumed flag is max(column) IS NOT null — plus the trailing
ownership statement exactly when the engine declares no sequence. -/
theorem c2_repoint_branch_statements (cat : Catalog) (table column cur : String)
    (hcur : sequence_currently_used cat table column = .ok (some cur))
    (hcurex : sequence_exists cat cur = true)
    (hdjex : sequence_exists cat (sequence_expected_by_django table column) = true)
    (hne : sequence_expected_by_django table column ≠ cur) :
    suggest_sequence_repair_sql cat table column =
      .ok (["ALTER TABLE " ++ table ++ " ALTER COLUMN " ++ column ++
              " SET DEFAULT nextval('" ++ sequence_expected_by_django table column ++ "');",
            "SELECT setval('" ++ sequence_expected_by_django table column ++
              "', coalesce(max(\"" ++ column ++ "\"), 1), max(\"" ++ column ++
              "\") IS NOT null) FROM " ++ table ++ ";"] ++
        (if (sequence_according_to_postgres cat table column).isSome then []
         else [get_sequence_permission_fixing_sql table column cur])) := by
  unfold suggest_sequence_repair_sql suggest_repairs
  rw [hcur]
  cases hpg : sequence_according_to_postgres cat table column with
  | some s =>
    simp [hdjex, hcurex, hne, hpg, renderRepair, Except.map]
  | none =>
    simp [hdjex, hcurex, hne, hpg, renderRepair, Except.map,
      get_sequence_permission_fixing_sql]

/-- Witness for C2: both orders_id_seq and orders_id_seq1 exist, the default
references orders_id_seq1, ownership is declared: exactly the SET DEFAULT and
setval statements come out. -/
theorem c2_repoint_branch_statements_witness :
    sequence_currently_used catOrdersRepoint "orders" "id" = .ok (some "orders_id_seq1") ∧
    sequence_exists catOrdersRepoint "orders_id_seq1" = true ∧
    sequence_exists catOrdersRepoint (sequence_expected_by_django "orders" "id") = true ∧
    sequence_expected_by_django "orders" "id" ≠ "orders_id_seq1" ∧
    suggest_sequence_repair_sql catOrdersRepoint "orders" "id" =
      .ok (["ALTER TABLE " ++ "orders" ++ " ALTER COLUMN " ++ "id" ++
              " SET DEFAULT nextval('" ++ sequence_expected_by_django "orders" "id" ++ "');",
            "SELECT setval('" ++ sequence_expected_by_django "orders" "id" ++
              "', coalesce(max(\"" ++ "id" ++ "\"), 1), max(\"" ++ "id" ++
              "\") IS NOT null) FROM " ++ "orders" ++ ";"] ++
        (if (sequence_according_to_postgres catOrdersRepoint "orders" "id").isSome then []
         else [get_sequence_permission_fixing_sql "orders" "id" "orders_id_seq1"])) :=
  ⟨by decide, by decide, by decide, by decide,
    c2_repoint_branch_statements catOrdersRepoint "orders" "id" "orders_id_seq1"
      (by decide) (by decide) (by decide) (by decide)⟩

/-- C10 (implicit): in the rename branch with no engine-declared sequence, the
trailing ownership statement names the currently-referenced sequence — the very
name the first statement of the same list renames away — because line 116
re-runs sequence_currently_used() against the unmodified catalog rather than
using the expected name the new default will reference. -/
theorem c10_ownership_names_prerename_sequence (cat : Catalog) (table column cur : String)
    (hcur : sequence_currently_used cat table column = .ok (some cur))
    (hcurex : sequence_exists cat cur = true)
    (hdjex : sequence_exists cat (sequence_expected_by_django table column) = false)
    (hne : sequence_expected_by_django table column ≠ cur)
    (hpg : sequence_according_to_postgres cat table column = none) :
    suggest_sequence_repair_sql cat table column =
      .ok ["ALTER SEQUENCE " ++ cur ++ " RENAME TO " ++
              sequence_expected_by_django table column ++ ";",
           "ALTER TABLE " ++ table ++ " ALTER COLUMN " ++ column ++
              " SET DEFAULT nextval('" ++ sequence_expected_by_django table column ++ "');",
           "ALTER SEQUENCE " ++ cur ++ " OWNED BY " ++ table ++ "." ++ column ++ ";"] := by
  unfold suggest_sequence_repair_sql suggest_repairs
  rw [hcur]
  simp [hdjex, hcurex, hne, hpg, renderRepair, Except.map,
    get_sequence_permission_fixing_sql]

/-- Witness for C10: the spec's concrete scenario without declared ownership;
the last statement binds ownership of orders_id_seq1, which the first statement
just renamed to orders_id_seq. -/
theorem c10_ownership_names_prerename_sequence_witness :
    sequence_currently_used catOrdersRename "orders" "id" = .ok (some "orders_id_seq1") ∧
    sequence_according_to_postgres catOrdersRename "orders" "id" = none ∧
    suggest_sequence_repair_sql catOrdersRename "orders" "id" =
      .ok ["ALTER SEQUENCE " ++ "orders_id_seq1" ++ " RENAME TO " ++
              sequence_expected_by_django "orders" "id" ++ ";",
           "ALTER TABLE " ++ "orders" ++ " ALTER COLUMN " ++ "id" ++
              " SET DEFAULT nextval('" ++ sequence_expected_by_django "orders" "id" ++ "');",
           "ALTER SEQUENCE " ++ "orders_id_seq1" ++ " OWNED BY " ++ "orders" ++ "." ++ "id" ++ ";"] :=
  ⟨by decide, by decide,
    c10_ownership_names_prerename_sequence catOrdersRename "orders" "id" "orders_id_seq1"
      (by decide) (by decide) (by decide) (by decide) (by decide)⟩

/-- Counterexample for C6: expected and current name agree ("t_c_seq") and the
sequence exists, yet the output is not empty — the engine declares no sequence,
so the ownership statement of line 116 is still appended. -/
theorem c6_equal_branch_ownership_cex :
    suggest_sequence_repair_sql catShared "t" "c" =
      .ok ["ALTER SEQUENCE t_c_seq OWNED BY t.c;"] ∧
    suggest_sequence_repair_sql catShared "t" "c" ≠ .ok [] := by
  refine ⟨by decide, ?_⟩
  decide

/-- C6 (amended): when the expected and current names agree and the sequence
exists, the output is empty exactly when the engine declares a sequence;
otherwise it is the single ownership statement. -/
theorem c6_equal_branch_statements (cat : Catalog) (table column cur : String)
    (hcur : sequence_currently_used cat table column = .ok (some cur))
    (heq : sequence_expected_by_django table column = cur)
    (hex : sequence_exists cat cur = true) :
    suggest_sequence_repair_sql cat table column =
      .ok (if (sequence_according_to_postgres cat table column).isSome then []
           else [get_sequence_permission_fixing_sql table column cur]) := by
  unfold suggest_sequence_repair_sql suggest_repairs
  rw [hcur]
  cases hpg : sequence_according_to_postgres cat table column with
  | some s => simp [heq, hex, hpg, renderRepair, Except.map]
  | none => simp [heq, hex, hpg, renderRepair, Except.map]

/-- Witness for C6 (amended): names agree, the sequence exists and is owned by
the column: empty output. -/
theorem c6_equal_branch_statements_witness :
    sequence_currently_used catSharedOwned "t" "c" = .ok (some "t_c_seq") ∧
    sequence_expected_by_django "t" "c" = "t_c_seq" ∧
    sequence_exists catSharedOwned "t_c_seq" = true ∧
    suggest_sequence_repair_sql catSharedOwned "t" "c" =
      .ok (if (sequence_according_to_postgres catSharedOwned "t" "c").isSome then []
           else [get_sequence_permission_fixing_sql "t" "c" "t_c_seq"]) :=
  ⟨by decide, by decide, by decide,
    c6_equal_branch_statements catSharedOwned "t" "c" "t_c_seq"
      (by decide) (by decide) (by decide)⟩

/-- Counterexample for C3: a column whose current sequence cannot be determined
(no default row at all) while the engine also declares no sequence.  The claim
says an ownership-fix statement is appended even in the insufficient-information
skip branch; the code returns at line 89 before reaching line 116, so the
output is empty and ends in no ownership statement. -/
theorem c3_skip_branch_no_ownership_cex :
    suggest_sequence_repair_sql (Catalog.mk [] [] []) "t" "c" = .ok [] ∧
    sequence_according_to_postgres (Catalog.mk [] [] []) "t" "c" = none := by
  exact ⟨by decide, by decide⟩

/-- C3 (amended): when the engine declares no sequence, the output ends with the
ownership statement binding the currently-referenced sequence to the column —
but only in the branches that reach line 113: the current sequence must have
been determined and at least one of the two sequences must exist.  The
insufficient-information and neither-exists branches return before line 113
and append nothing. -/
theorem c3_ownership_appended_late_branches (cat : Catalog) (table column cur : String)
    (hcur : sequence_currently_used cat table column = .ok (some cur))
    (hsome : (sequence_exists cat (sequence_expected_by_django table column) ||
              sequence_exists cat cur) = true)
    (hpg : sequence_according_to_postgres cat table column = none) :
    ∃ rs, suggest_sequence_repair_sql cat table column = .ok rs ∧
      rs.getLast? = some (get_sequence_permission_fixing_sql table column cur) := by
  unfold suggest_sequence_repair_sql suggest_repairs
  rw [hcur]
  by_cases heq : sequence_expected_by_django table column = cur
  · rw [heq] at hsome
    simp only [Bool.or_self] at hsome
    refine ⟨[get_sequence_permission_fixing_sql table column cur], ?_, by simp⟩
    simp [heq, hsome, hpg, renderRepair, Except.map]
  · cases hdj : sequence_exists cat (sequence_expected_by_django table column) with
    | true =>
      refine ⟨["ALTER TABLE " ++ table ++ " ALTER COLUMN " ++ column ++
                 " SET DEFAULT nextval('" ++ sequence_expected_by_django table column ++ "');",
               "SELECT setval('" ++ sequence_expected_by_django table column ++
                 "', coalesce(max(\"" ++ column ++ "\"), 1), max(\"" ++ column ++
                 "\") IS NOT null) FROM " ++ table ++ ";",
               get_sequence_permission_fixing_sql table column cur], ?_, by simp⟩
      simp [heq, hdj, hpg, renderRepair, Except.map, get_sequence_permission_fixing_sql]
    | false =>
      rw [hdj] at hsome
      simp only [Bool.false_or] at hsome
      refine ⟨["ALTER SEQUENCE " ++ cur ++ " RENAME TO " ++
                 sequence_expected_by_django table column ++ ";",
               "ALTER TABLE " ++ table ++ " ALTER COLUMN " ++ column ++
                 " SET DEFAULT nextval('" ++ sequence_expected_by_django table column ++ "');",
               get_sequence_permission_fixing_sql table column cur], ?_, by simp⟩
      simp [heq, hdj, hsome, hpg, renderRepair, Except.map, get_sequence_permission_fixing_sql]

/-- Witness for C3 (amended): names agree, the sequence exists, no ownership is
declared; the output's last statement is the ownership fix. -/
theorem c3_ownership_appended_late_branches_witness :
    sequence_currently_used catShared "t" "c" = .ok (some "t_c_seq") ∧
    (sequence_exists catShared (sequence_expected_by_django "t" "c") ||
      sequence_exists catShared "t_c_seq") = true ∧
    sequence_according_to_postgres catShared "t" "c" = none ∧
    ∃ rs, suggest_sequence_repair_sql catShared "t" "c" = .ok rs ∧
      rs.getLast? = some (get_sequence_permission_fixing_sql "t" "c" "t_c_seq") :=
  ⟨by decide, by decide, by decide,
    c3_ownership_appended_late_branches catShared "t" "c" "t_c_seq"
      (by decide) (by decide) (by decide)⟩

/-- Counterexample for C4: for the default expression "(nextval('x'))" — a
default that is present and does not match the anchored nextval pattern —
sequence_currently_used raises ValueError, but check_pk_field does not catch it
(its except clause names DatabaseError only): the error escapes the per-column
driver instead of being logged and skipped. -/
theorem c4_value_error_uncaught_cex :
    check_pk_field catBadDefault "t" "c" =
      (.error (.valueError "nextval regex failed. t.c adsrc: (nextval('x'))"), false) ∧
    (check_pk_field catBadDefault "t" "c").1 ≠ .ok [] := by
  exact ⟨by decide, by decide⟩

/-- C4 (amended): a default-value expression that contains "nextval"
(case-insensitively) but fails the anchored nextval regex makes
sequence_currently_used raise ValueError; check_pk_field catches only
DatabaseError, so the ValueError propagates out of the per-column check (and
the rollback line is never reached) instead of being logged and skipped. -/
theorem c4_parse_error_propagates (cat : Catalog) (table column msg : String)
    (hcur : sequence_currently_used cat table column = .error (.valueError msg)) :
    check_pk_field cat table column = (.error (.valueError msg), false) := by
  unfold check_pk_field suggest_sequence_repair_sql suggest_repairs
  rw [hcur]
  rfl

/-- Witness for C4 (amended): the "(nextval('x'))" default propagates its
ValueError out of check_pk_field. -/
theorem c4_parse_error_propagates_witness :
    sequence_currently_used catBadDefault "t" "c" =
      .error (.valueError "nextval regex failed. t.c adsrc: (nextval('x'))") ∧
    check_pk_field catBadDefault "t" "c" =
      (.error (.valueError "nextval regex failed. t.c adsrc: (nextval('x'))"), false) :=
  ⟨by decide,
    c4_parse_error_propagates catBadDefault "t" "c"
      "nextval regex failed. t.c adsrc: (nextval('x'))" (by decide)⟩

/-- Counterexample for C7: on the ValueError path the `transaction.rollback()`
call at line 138 is never reached — the exception is not caught by the
DatabaseError clause, so check_pk_field exits without rolling back. -/
theorem c7_rollback_skipped_cex :
    (check_pk_field catBadDefault "t" "c").2 = false := by
  decide

/-- C7 (amended): check_pk_field reaches its rollback on the success path (and
on a caught DatabaseError), but not on every exit path: an uncaught exception
such as the regex ValueError propagates before the rollback line. -/
theorem c7_rollback_on_success (cat : Catalog) (table column : String)
    (rs : List String)
    (hok : suggest_sequence_repair_sql cat table column = .ok rs) :
    (check_pk_field cat table column).2 = true := by
  unfold check_pk_field
  rw [hok]

/-- Witness for C7 (amended): a successful check (the shared-name catalog)
reaches the rollback. -/
theorem c7_rollback_on_success_witness :
    suggest_sequence_repair_sql catShared "t" "c" =
      .ok ["ALTER SEQUENCE t_c_seq OWNED BY t.c;"] ∧
    (check_pk_field catShared "t" "c").2 = true :=
  ⟨by decide,
    c7_rollback_on_success catShared "t" "c"
      ["ALTER SEQUENCE t_c_seq OWNED BY t.c;"] (by decide)⟩

/-- C8 (code bug): Sequence.exists (line 29) executes its query on the
module-global `cursor` instead of `self.cursor`, then fetches from self.cursor.
With the constructed cursor (id 1) different from the global one (id 0) and an
empty stale buffer, exists returns false although the catalog holds a
relkind-'S' row named "s"; with the constructed cursor equal to the global one
(the only situation the script itself produces) it returns true as specified.
Importing the module without running __main__ leaves the global `cursor`
undefined entirely. -/
theorem c8_exists_global_cursor_bug :
    Sequence_exists_run (Catalog.mk ["s"] [] []) "s" 0 1 [] = false ∧
    "s" ∈ (Catalog.mk ["s"] [] []).sequences ∧
    Sequence_exists_run (Catalog.mk ["s"] [] []) "s" 0 0 [] = true := by
  exact ⟨by decide, by decide, by decide⟩

/- LIKE-pattern lemmas for the similar-sequence search. -/

/-- A leading `%` matches iff some suffix of the string matches the rest of the
pattern. -/
theorem likeMatch_percent_cons (ps : List Char) (s : List Char) :
    likeMatch ('%' :: ps) s = true ↔ ∃ t, t <:+ s ∧ likeMatch ps t = true := by
  simp [likeMatch, List.any_eq_true, List.mem_tails]

/-- A leading `_` matches iff the string is nonempty and the rest matches. -/
theorem likeMatch_wild_cons (ps : List Char) (s : List Char) :
    likeMatch ('_' :: ps) s = true ↔ ∃ c t, s = c :: t ∧ likeMatch ps t = true := by
  cases s with
  | nil => simp [likeMatch]
  | cons c t =>
    simp only [likeMatch]
    constructor
    · intro h
      exact ⟨c, t, rfl, by simpa using h⟩
    · rintro ⟨c1, t1, heq, h⟩
      cases heq
      simpa using h

/-- A percent-free pattern matches iff the string has the same length and
agrees with it at every position that is not an `_` wildcard. -/
theorem likeMatch_no_percent (ps : List Char) (s : List Char) (hp : '%' ∉ ps) :
    likeMatch ps s = true ↔ List.Forall₂ (fun q c => q = '_' ∨ q = c) ps s := by
  induction ps generalizing s with
  | nil =>
    cases s with
    | nil => simp [likeMatch]
    | cons c t => simp [likeMatch]
  | cons q ps ih =>
    have hq : q ≠ '%' := fun h => hp (h ▸ List.mem_cons_self q ps)
    have hp' : '%' ∉ ps := fun h => hp (List.mem_cons_of_mem q h)
    cases s with
    | nil => simp [likeMatch, hq]
    | cons c t =>
      simp only [likeMatch, if_neg hq, Bool.and_eq_true, Bool.or_eq_true,
        List.forall₂_cons, ih t hp', decide_eq_true_eq]

/-- Counterexample for C9: the LIKE pattern is '%_' followed by the joined
last-three-segment suffix, in which every underscore is itself a single-char
wildcard.  A catalog sequence equal to the Sequence's own three-segment name is
NOT returned (the pattern demands at least one extra character before the
suffix), while a name that does not share the underscore-delimited segments at
all ("q_ordersXidYseq") IS returned. -/
theorem c9_own_name_not_returned_cex :
    "orders_id_seq" ∈ (Catalog.mk ["orders_id_seq"] [] []).sequences ∧
    get_similar_sequence_names (Catalog.mk ["orders_id_seq"] [] []) "orders_id_seq" = [] ∧
    get_similar_sequence_names (Catalog.mk ["q_ordersXidYseq"] [] []) "orders_id_seq" =
      ["q_ordersXidYseq"] := by
  exact ⟨by decide, by decide, by decide⟩

/-- C9 (amended): get_similar_sequence_names returns exactly the catalog
sequence names of the form  prefix ++ [one arbitrary character] ++ tail  where
the tail has the length of the joined last-three-segment suffix and agrees with
it at every position where the suffix does not have an underscore (each
underscore in the suffix is a single-character LIKE wildcard).  In particular a
name with at most three segments never matches itself. -/
theorem c9_similar_names_characterization (cat : Catalog) (name r : String)
    (hp : '%' ∉ likeSuffixChars name) :
    r ∈ get_similar_sequence_names cat name ↔
      r ∈ cat.sequences ∧ ∃ a c b, r.data = a ++ c :: b ∧
        List.Forall₂ (fun q ch => q = '_' ∨ q = ch) (likeSuffixChars name) b := by
  unfold get_similar_sequence_names
  constructor
  · intro h
    obtain ⟨hmem, hmatch⟩ := List.mem_filter.mp h
    obtain ⟨t, hsuf, h1⟩ := (likeMatch_percent_cons _ _).mp hmatch
    obtain ⟨c, b, rfl, h2⟩ := (likeMatch_wild_cons _ _).mp h1
    obtain ⟨a, ha⟩ := hsuf
    exact ⟨hmem, a, c, b, ha.symm, (likeMatch_no_percent _ _ hp).mp h2⟩
  · rintro ⟨hmem, a, c, b, hdata, hf⟩
    refine List.mem_filter.mpr ⟨hmem, ?_⟩
    apply (likeMatch_percent_cons _ _).mpr
    refine ⟨c :: b, ⟨a, hdata.symm⟩, ?_⟩
    apply (likeMatch_wild_cons _ _).mpr
    exact ⟨c, b, rfl, (likeMatch_no_percent _ _ hp).mpr hf⟩

/-- Witness for C9 (amended): "x_orders_id_seq" is returned for the sequence
named "orders_id_seq", via the characterization. -/
theorem c9_similar_names_characterization_witness :
    "x_orders_id_seq" ∈
        get_similar_sequence_names (Catalog.mk ["x_orders_id_seq"] [] []) "orders_id_seq" ↔
      "x_orders_id_seq" ∈ (Catalog.mk ["x_orders_id_seq"] [] []).sequences ∧
        ∃ a c b, "x_orders_id_seq".data = a ++ c :: b ∧
          List.Forall₂ (fun q ch => q = '_' ∨ q = ch) (likeSuffixChars "orders_id_seq") b :=
  c9_similar_names_characterization (Catalog.mk ["x_orders_id_seq"] [] [])
    "orders_id_seq" "x_orders_id_seq" (by decide)

/- Helper lemmas for the idempotence analysis. -/

theorem beginsWith_append_self (n rest : List Char) :
    beginsWith n (n ++ rest) = true := by
  induction n with
  | nil => rfl
  | cons a as ih => simp [beginsWith, ih]

theorem containsSub_append_self (n rest : List Char) :
    containsSub n (n ++ rest) = true := by
  cases n with
  | nil =>
    cases rest with
    | nil => rfl
    | cons c t => simp [containsSub, beginsWith]
  | cons a as =>
    have h : beginsWith (a :: as) ((a :: as) ++ rest) = true :=
      beginsWith_append_self (a :: as) rest
    show containsSub (a :: as) (a :: (as ++ rest)) = true
    rw [containsSub]
    exact Bool.or_eq_true_iff.mpr (Or.inl h)

/-- Whether a pattern without quotes is a prefix only depends on the part of
the subject before its first quote. -/
theorem beginsWith_quote_indep (n : List Char) (a b : List Char) (hn : '\'' ∉ n) :
    beginsWith n (a ++ '\'' :: b) = beginsWith n (a ++ ['\'']) := by
  induction n generalizing a with
  | nil => rfl
  | cons q ns ih =>
    have hq : q ≠ '\'' := fun h => hn (h ▸ List.mem_cons_self q ns)
    have hn' : '\'' ∉ ns := fun h => hn (List.mem_cons_of_mem q h)
    cases a with
    | nil => simp [beginsWith, hq]
    | cons x xs =>
      show (decide (q = x) && beginsWith ns (xs ++ '\'' :: b)) =
        (decide (q = x) && beginsWith ns (xs ++ ['\'']))
      rw [ih xs hn']

theorem takeWhile_append_quote (l b : List Char) (h : '\'' ∉ l) :
    (l ++ '\'' :: b).takeWhile (fun c => !(c = '\'')) = l := by
  induction l with
  | nil => simp [List.takeWhile_cons]
  | cons x xs ih =>
    have hx : x ≠ '\'' := fun hc => h (hc ▸ List.mem_cons_self x xs)
    have h' : '\'' ∉ xs := fun hc => h (List.mem_cons_of_mem x hc)
    simp [List.takeWhile_cons, hx, ih h']

theorem dropWhile_append_quote (l b : List Char) (h : '\'' ∉ l) :
    (l ++ '\'' :: b).dropWhile (fun c => !(c = '\'')) = '\'' :: b := by
  induction l with
  | nil => simp [List.dropWhile_cons]
  | cons x xs ih =>
    have hx : x ≠ '\'' := fun hc => h (hc ▸ List.mem_cons_self x xs)
    have h' : '\'' ∉ xs := fun hc => h (List.mem_cons_of_mem x hc)
    simp [List.dropWhile_cons, hx, ih h']

/-- The backtracking tail of the nextval regex extracts exactly the quoted name
when the name is quote-free, nonempty, and does not begin with "public". -/
theorem parsePublicOpt_clean (sd T : List Char) (hne : sd ≠ []) (hq : '\'' ∉ sd)
    (hpub : beginsWith pubChars (sd ++ ['\'']) = false) :
    parsePublicOpt (sd ++ '\'' :: T) = some sd := by
  have hb : beginsWith pubChars (sd ++ '\'' :: T) = false := by
    rw [beginsWith_quote_indep pubChars sd T (by decide)]
    exact hpub
  unfold parsePublicOpt
  rw [hb]
  simp only [Bool.false_eq_true, if_false]
  unfold parseGroup
  rw [takeWhile_append_quote sd T hq, dropWhile_append_quote sd T hq]
  simp [hne]

theorem defaultSrc_data (s : String) :
    (defaultSrc s).data =
      (nvChars ++ ['(', '\'']) ++ (s.data ++ '\'' :: "::regclass)".data) := by
  unfold defaultSrc
  rw [String.data_append, String.data_append]
  have h1 : ("nextval('" : String).data = nvChars ++ ['(', '\''] := by decide
  have h2 : ("'::regclass)" : String).data = '\'' :: "::regclass)".data := by decide
  rw [h1, h2, List.append_assoc]

/-- The stored default written by SET DEFAULT passes the ILIKE nextval filter. -/
theorem ilikeNextval_defaultSrc (s : String) : ilikeNextval (defaultSrc s) = true := by
  unfold ilikeNextval
  rw [defaultSrc_data, List.map_append]
  have h : (nvChars ++ ['(', '\'']).map Char.toLower = nvChars ++ ['(', '\''] := by decide
  rw [h, List.append_assoc]
  have h2 : "nextval".data = nvChars := by decide
  rw [h2]
  exact containsSub_append_self nvChars _

/-- The stored default written by SET DEFAULT parses back to exactly the
sequence it names, provided that name is nonempty, quote-free and does not
begin with "public". -/
theorem nextvalRegexMatch_defaultSrc (s : String)
    (hne : s.data ≠ []) (hq : '\'' ∉ s.data)
    (hpub : beginsWith pubChars (s.data ++ ['\'']) = false) :
    nextvalRegexMatch (defaultSrc s) = some s := by
  unfold nextvalRegexMatch
  rw [defaultSrc_data, List.append_assoc]
  rw [beginsWith_append_self nvChars _]
  simp only [if_true]
  have hdrop : (nvChars ++ (['(', '\''] ++ (s.data ++ '\'' :: "::regclass)".data))).drop 7 =
      ['(', '\''] ++ (s.data ++ '\'' :: "::regclass)".data) := by
    have : (7 : Nat) = nvChars.length := by decide
    rw [this, List.drop_left]
  rw [hdrop]
  have hparens : dropParens ('(' :: '\'' :: (s.data ++ '\'' :: "::regclass)".data)) =
      (1, '\'' :: (s.data ++ '\'' :: "::regclass)".data)) := by
    rfl
  rw [show (['(', '\''] ++ (s.data ++ '\'' :: "::regclass)".data)) =
        '(' :: '\'' :: (s.data ++ '\'' :: "::regclass)".data) from rfl]
  rw [hparens]
  simp only [ne_eq, OfNat.ofNat_ne_zero, if_false]
  rw [parsePublicOpt_clean s.data "::regclass)".data hne hq hpub]
  show some (String.mk s.data) = some s
  cases s
  rfl

theorem currently_used_congr (c1 c2 : Catalog) (t c : String)
    (h : c1.defaults = c2.defaults) :
    sequence_currently_used c1 t c = sequence_currently_used c2 t c := by
  unfold sequence_currently_used
  rw [h]

theorem pg_congr (c1 c2 : Catalog) (t c : String) (h : c1.owners = c2.owners) :
    sequence_according_to_postgres c1 t c = sequence_according_to_postgres c2 t c := by
  unfold sequence_according_to_postgres
  rw [h]

theorem seq_exists_congr (c1 c2 : Catalog) (n : String) (h : c1.sequences = c2.sequences) :
    sequence_exists c1 n = sequence_exists c2 n := by
  unfold sequence_exists
  rw [h]

theorem ownedBy_defaults (cat : Catalog) (s t c : String) :
    (applyRepair cat (.ownedBy s t c)).defaults = cat.defaults := by
  simp only [applyRepair]
  split <;> rfl

theorem ownedBy_sequences (cat : Catalog) (s t c : String) :
    (applyRepair cat (.ownedBy s t c)).sequences = cat.sequences := by
  simp only [applyRepair]
  split <;> rfl

theorem setDefault_sequences (cat : Catalog) (t c s : String) :
    (applyRepair cat (.setDefault t c s)).sequences = cat.sequences := rfl

theorem setDefault_owners (cat : Catalog) (t c s : String) :
    (applyRepair cat (.setDefault t c s)).owners = cat.owners := rfl

theorem setval_apply (cat : Catalog) (a b d : String) :
    applyRepair cat (.setval a b d) = cat := rfl

/-- After SET DEFAULT, the column's only matching default row is the stored
nextval default, and it parses back to the new sequence name. -/
theorem currently_used_after_setDefault (cat : Catalog) (t c s : String)
    (hne : s.data ≠ []) (hq : '\'' ∉ s.data)
    (hpub : beginsWith pubChars (s.data ++ ['\'']) = false) :
    sequence_currently_used (applyRepair cat (.setDefault t c s)) t c = .ok (some s) := by
  have hdef : (applyRepair cat (.setDefault t c s)).defaults =
      AttrDefRow.mk t c (defaultSrc s) ::
        cat.defaults.filter (fun r => !(r.relname = t && r.attname = c)) := rfl
  have htail : List.filter
      (fun r => r.relname = t && r.attname = c && ilikeNextval r.adsrc)
      (List.filter (fun r => !(r.relname = t && r.attname = c)) cat.defaults) = [] := by
    rw [List.filter_filter]
    rw [List.filter_eq_nil_iff]
    intro r hr
    by_cases h1 : r.relname = t
    · by_cases h2 : r.attname = c
      · simp [h1, h2]
      · simp [h2]
    · simp [h1]
  have hrows : List.filter
      (fun r => r.relname = t && r.attname = c && ilikeNextval r.adsrc)
      ((applyRepair cat (.setDefault t c s)).defaults) = [AttrDefRow.mk t c (defaultSrc s)] := by
    rw [hdef, List.filter_cons]
    simp [ilikeNextval_defaultSrc, htail]
    exact fun a _ h1 h2 _ => ⟨h1, h2⟩
  unfold sequence_currently_used
  rw [hrows]
  dsimp only
  rw [nextvalRegexMatch_defaultSrc s hne hq hpub]

/-- After OWNED BY on an existing sequence, the engine declares that sequence
for the column. -/
theorem pg_after_ownedBy (cat : Catalog) (s t c : String)
    (hex : sequence_exists cat s = true) :
    sequence_according_to_postgres (applyRepair cat (.ownedBy s t c)) t c = some s := by
  have h : cat.sequences.contains s = true := hex
  have howners : (applyRepair cat (.ownedBy s t c)).owners =
      OwnerRow.mk s t c :: cat.owners.filter (fun o => !(o.seqname = s)) := by
    simp only [applyRepair, h, if_true]
  unfold sequence_according_to_postgres
  rw [howners]
  simp [List.find?_cons]

/-- Renaming a sequence preserves the presence of an engine-declared sequence
for any column (ownership follows the rename). -/
theorem pg_preserved_rename (cat : Catalog) (o n t c : String)
    (h : (sequence_according_to_postgres cat t c).isSome = true) :
    (sequence_according_to_postgres (applyRepair cat (.rename o n)) t c).isSome = true := by
  by_cases hc : cat.sequences.contains o = true
  · have howners : (applyRepair cat (.rename o n)).owners =
        cat.owners.map (fun o' => if o'.seqname = o then
          OwnerRow.mk n o'.table o'.column else o') := by
      simp only [applyRepair, hc, if_true]
    unfold sequence_according_to_postgres at h ⊢
    rw [howners, List.find?_map]
    have hpred : ((fun o' : OwnerRow => o'.table = t && o'.column = c) ∘
        (fun o' => if o'.seqname = o then OwnerRow.mk n o'.table o'.column else o')) =
        fun o' : OwnerRow => o'.table = t && o'.column = c := by
      funext o'
      by_cases hs : o'.seqname = o <;> simp [hs]
    rw [hpred]
    cases hfind : List.find? (fun o' : OwnerRow => o'.table = t && o'.column = c) cat.owners with
    | none => rw [hfind] at h; simp at h
    | some v => simp [hfind]
  · have hcf : cat.sequences.contains o = false := by
      simpa using hc
    have : applyRepair cat (.rename o n) = cat := by
      simp only [applyRepair, hcf, Bool.false_eq_true, if_false]
    rw [this]
    exact h

/-- Renaming an existing sequence makes the new name exist. -/
theorem exists_after_rename (cat : Catalog) (o n : String)
    (h : sequence_exists cat o = true) :
    sequence_exists (applyRepair cat (.rename o n)) n = true := by
  have hc : cat.sequences.contains o = true := h
  have hseq : (applyRepair cat (.rename o n)).sequences =
      cat.sequences.map (fun s => if s = o then n else s) := by
    simp only [applyRepair, hc, if_true]
  unfold sequence_exists at *
  rw [hseq]
  have hmem : o ∈ cat.sequences := by simpa using hc
  have : n ∈ cat.sequences.map (fun s => if s = o then n else s) :=
    List.mem_map.mpr ⟨o, hmem, by simp⟩
  simpa using this

/-- A second run on a catalog in which the current default already names the
expected sequence, that sequence exists, and the engine declares a sequence,
produces no repairs. -/
theorem run_on_clean (cat2 : Catalog) (t c : String)
    (h1 : sequence_currently_used cat2 t c = .ok (some (sequence_expected_by_django t c)))
    (h2 : sequence_exists cat2 (sequence_expected_by_django t c) = true)
    (h3 : (sequence_according_to_postgres cat2 t c).isSome = true) :
    suggest_repairs cat2 t c = .ok [] := by
  unfold suggest_repairs
  rw [h1]
  obtain ⟨v, hv⟩ := Option.isSome_iff_exists.mp h3
  simp [h2, hv]

theorem expected_data_ne_nil (t c : String) :
    (sequence_expected_by_django t c).data ≠ [] := by
  unfold sequence_expected_by_django
  rw [String.data_append]
  intro h
  obtain ⟨-, h2⟩ := List.append_eq_nil.mp h
  exact absurd h2 (by decide)

/-- C5 (amended): applying the first run's statements (with their documented
effects) makes a second run empty, provided the first run determined the
current sequence and, whenever the engine declares no sequence, the branch
taken is one whose trailing ownership statement names a still-existing
sequence: the names-equal branch, or the re-point branch with an existing
current sequence.  (In the remaining case — the rename branch with no declared
sequence — the ownership statement names the sequence the rename just removed,
takes no effect, and the second run is nonempty; see the counterexample.)
The side conditions on the expected name rule out the parser quirks of the
nextval regex: a quote inside the name or a name beginning with "public" would
make the re-parsed default differ from the expected name. -/
theorem c5_idempotent_amended (cat : Catalog) (table column cur : String) (rs : List Repair)
    (hq : '\'' ∉ (sequence_expected_by_django table column).data)
    (hpub : beginsWith pubChars
      ((sequence_expected_by_django table column).data ++ ['\'']) = false)
    (hcur : sequence_currently_used cat table column = .ok (some cur))
    (hsafe : (sequence_according_to_postgres cat table column).isSome = true ∨
             sequence_expected_by_django table column = cur ∨
             (sequence_exists cat cur = true ∧
              sequence_exists cat (sequence_expected_by_django table column) = true))
    (hrun : suggest_repairs cat table column = .ok rs) :
    suggest_repairs (applyRepairs cat rs) table column = .ok [] ∧
    suggest_sequence_repair_sql (applyRepairs cat rs) table column = .ok [] := by
  have hne := expected_data_ne_nil table column
  have hrun0 := hrun
  unfold suggest_repairs at hrun
  rw [hcur] at hrun
  by_cases hboth : (!sequence_exists cat (sequence_expected_by_django table column) &&
      !sequence_exists cat cur) = true
  · -- neither sequence exists: the first run is empty and nothing changes
    simp only [hboth, if_true] at hrun
    have hrs : rs = [] := by simpa using hrun.symm
    subst hrs
    have hclean : suggest_repairs (applyRepairs cat []) table column = .ok [] := by
      show suggest_repairs cat table column = .ok []
      simpa using hrun0
    exact ⟨hclean, by unfold suggest_sequence_repair_sql; rw [hclean]; rfl⟩
  · by_cases heq : sequence_expected_by_django table column = cur
    · -- names-equal branch
      have hex : sequence_exists cat cur = true := by
        have h' := hboth
        rw [heq] at h'
        simpa using h'
      cases hpg : sequence_according_to_postgres cat table column with
      | some v =>
        simp [heq, hex, hpg] at hrun
        subst hrun
        have hclean : suggest_repairs (applyRepairs cat []) table column = .ok [] := by
          show suggest_repairs cat table column = .ok []
          simpa using hrun0
        exact ⟨hclean, by unfold suggest_sequence_repair_sql; rw [hclean]; rfl⟩
      | none =>
        simp [heq, hex, hpg] at hrun
        have hrs : rs = [.ownedBy cur table column] := hrun.symm
        subst hrs
        have hd := ownedBy_defaults cat cur table column
        have hs := ownedBy_sequences cat cur table column
        have h1 : sequence_currently_used (applyRepair cat (.ownedBy cur table column))
            table column = .ok (some (sequence_expected_by_django table column)) := by
          rw [currently_used_congr _ cat table column hd, hcur, heq]
        have h2 : sequence_exists (applyRepair cat (.ownedBy cur table column))
            (sequence_expected_by_django table column) = true := by
          rw [seq_exists_congr _ cat _ hs, heq]
          exact hex
        have h3 : (sequence_according_to_postgres (applyRepair cat (.ownedBy cur table column))
            table column).isSome = true := by
          rw [pg_after_ownedBy cat cur table column hex]
          rfl
        have hclean : suggest_repairs (applyRepairs cat [.ownedBy cur table column])
            table column = .ok [] := run_on_clean _ table column h1 h2 h3
        exact ⟨hclean, by unfold suggest_sequence_repair_sql; rw [hclean]; rfl⟩
    · cases hdjex : sequence_exists cat (sequence_expected_by_django table column) with
      | false =>
        -- rename branch: hsafe forces a declared sequence
        have hcurex : sequence_exists cat cur = true := by
          have h' := hboth
          rw [hdjex] at h'
          simpa using h'
        have hpgSome : (sequence_according_to_postgres cat table column).isSome = true := by
          rcases hsafe with hpgs | heq' | ⟨-, hdj'⟩
          · exact hpgs
          · exact absurd heq' heq
          · rw [hdjex] at hdj'
            exact absurd hdj' (by decide)
        obtain ⟨v, hv⟩ := Option.isSome_iff_exists.mp hpgSome
        simp [heq, hdjex, hcurex, hv] at hrun
        have hrs : rs = [.rename cur (sequence_expected_by_django table column),
            .setDefault table column (sequence_expected_by_django table column)] := hrun.symm
        subst hrs
        have h1 := currently_used_after_setDefault
          (applyRepair cat (.rename cur (sequence_expected_by_django table column)))
          table column (sequence_expected_by_django table column) hne hq hpub
        have h2 : sequence_exists
            (applyRepair
              (applyRepair cat (.rename cur (sequence_expected_by_django table column)))
              (.setDefault table column (sequence_expected_by_django table column)))
            (sequence_expected_by_django table column) = true := by
          rw [seq_exists_congr _ _ _ (setDefault_sequences _ _ _ _)]
          exact exists_after_rename cat cur _ hcurex
        have h3 : (sequence_according_to_postgres
            (applyRepair
              (applyRepair cat (.rename cur (sequence_expected_by_django table column)))
              (.setDefault table column (sequence_expected_by_django table column)))
            table column).isSome = true := by
          rw [pg_congr _ _ table column (setDefault_owners _ _ _ _)]
          exact pg_preserved_rename cat cur _ table column hpgSome
        have hclean : suggest_repairs
            (applyRepairs cat [.rename cur (sequence_expected_by_django table column),
              .setDefault table column (sequence_expected_by_django table column)])
            table column = .ok [] := run_on_clean _ table column h1 h2 h3
        exact ⟨hclean, by unfold suggest_sequence_repair_sql; rw [hclean]; rfl⟩
      | true =>
        cases hpg : sequence_according_to_postgres cat table column with
        | some v =>
          simp [heq, hdjex, hpg] at hrun
          have hrs : rs = [.setDefault table column (sequence_expected_by_django table column),
              .setval (sequence_expected_by_django table column) column table] := hrun.symm
          subst hrs
          have hfold : applyRepairs cat
              [.setDefault table column (sequence_expected_by_django table column),
               .setval (sequence_expected_by_django table column) column table] =
              applyRepair cat (.setDefault table column
                (sequence_expected_by_django table column)) := rfl
          rw [hfold]
          have h1 := currently_used_after_setDefault cat table column
            (sequence_expected_by_django table column) hne hq hpub
          have h2 : sequence_exists
              (applyRepair cat (.setDefault table column
                (sequence_expected_by_django table column)))
              (sequence_expected_by_django table column) = true := by
            rw [seq_exists_congr _ cat _ (setDefault_sequences _ _ _ _)]
            exact hdjex
          have h3 : (sequence_according_to_postgres
              (applyRepair cat (.setDefault table column
                (sequence_expected_by_django table column)))
              table column).isSome = true := by
            rw [pg_congr _ cat table column (setDefault_owners _ _ _ _), hpg]
            rfl
          have hclean := run_on_clean _ table column h1 h2 h3
          exact ⟨hclean, by unfold suggest_sequence_repair_sql; rw [hclean]; rfl⟩
        | none =>
          have hcurex : sequence_exists cat cur = true := by
            rcases hsafe with hpgs | heq' | ⟨hc, -⟩
            · rw [hpg] at hpgs
              exact absurd hpgs (by decide)
            · exact absurd heq' heq
            · exact hc
          simp [heq, hdjex, hpg] at hrun
          have hrs : rs = [.setDefault table column (sequence_expected_by_django table column),
              .setval (sequence_expected_by_django table column) column table,
              .ownedBy cur table column] := hrun.symm
          subst hrs
          have hfold : applyRepairs cat
              [.setDefault table column (sequence_expected_by_django table column),
               .setval (sequence_expected_by_django table column) column table,
               .ownedBy cur table column] =
              applyRepair
                (applyRepair cat (.setDefault table column
                  (sequence_expected_by_django table column)))
                (.ownedBy cur table column) := rfl
          rw [hfold]
          have hcurex1 : sequence_exists
              (applyRepair cat (.setDefault table column
                (sequence_expected_by_django table column))) cur = true := by
            rw [seq_exists_congr _ cat _ (setDefault_sequences _ _ _ _)]
            exact hcurex
          have h1 : sequence_currently_used
              (applyRepair
                (applyRepair cat (.setDefault table column
                  (sequence_expected_by_django table column)))
                (.ownedBy cur table column)) table column =
              .ok (some (sequence_expected_by_django table column)) := by
            rw [currently_used_congr _ _ table column (ownedBy_defaults _ _ _ _)]
            exact currently_used_after_setDefault cat table column
              (sequence_expected_by_django table column) hne hq hpub
          have h2 : sequence_exists
              (applyRepair
                (applyRepair cat (.setDefault table column
                  (sequence_expected_by_django table column)))
                (.ownedBy cur table column))
              (sequence_expected_by_django table column) = true := by
            rw [seq_exists_congr _ _ _ (ownedBy_sequences _ _ _ _)]
            rw [seq_exists_congr _ cat _ (setDefault_sequences _ _ _ _)]
            exact hdjex
          have h3 : (sequence_according_to_postgres
              (applyRepair
                (applyRepair cat (.setDefault table column
                  (sequence_expected_by_django table column)))
                (.ownedBy cur table column)) table column).isSome = true := by
            rw [pg_after_ownedBy _ cur table column hcurex1]
            rfl
          have hclean := run_on_clean _ table column h1 h2 h3
          exact ⟨hclean, by unfold suggest_sequence_repair_sql; rw [hclean]; rfl⟩

/-- Counterexample for C5: the rename branch with no engine-declared sequence
is not idempotent.  The first run renames orders_id_seq1 away and then emits an
ownership statement still naming orders_id_seq1; applied in order, that last
statement targets a nonexistent sequence and has no effect, so the second run
still finds no declared sequence and emits an ownership statement — the output
is not empty. -/
theorem c5_rename_ownership_not_idempotent_cex :
    suggest_repairs catOrdersRename "orders" "id" =
      .ok [.rename "orders_id_seq1" "orders_id_seq",
           .setDefault "orders" "id" "orders_id_seq",
           .ownedBy "orders_id_seq1" "orders" "id"] ∧
    suggest_repairs (applyRepairs catOrdersRename
        [.rename "orders_id_seq1" "orders_id_seq",
         .setDefault "orders" "id" "orders_id_seq",
         .ownedBy "orders_id_seq1" "orders" "id"]) "orders" "id" =
      .ok [.ownedBy "orders_id_seq" "orders" "id"] ∧
    suggest_sequence_repair_sql (applyRepairs catOrdersRename
        [.rename "orders_id_seq1" "orders_id_seq",
         .setDefault "orders" "id" "orders_id_seq",
         .ownedBy "orders_id_seq1" "orders" "id"]) "orders" "id" ≠ .ok [] := by
  exact ⟨by decide, by decide, by decide⟩

/-- Witness for C5 (amended): the names-equal branch with no declared sequence
(catalog catShared) is idempotent: applying its single ownership statement
makes the second run empty. -/
theorem c5_idempotent_amended_witness :
    sequence_currently_used catShared "t" "c" = .ok (some "t_c_seq") ∧
    suggest_repairs catShared "t" "c" = .ok [.ownedBy "t_c_seq" "t" "c"] ∧
    suggest_repairs (applyRepairs catShared [.ownedBy "t_c_seq" "t" "c"]) "t" "c" = .ok [] ∧
    suggest_sequence_repair_sql (applyRepairs catShared [.ownedBy "t_c_seq" "t" "c"])
      "t" "c" = .ok [] := by
  refine ⟨by decide, by decide, ?_⟩
  exact c5_idempotent_amended catShared "t" "c" "t_c_seq" [.ownedBy "t_c_seq" "t" "c"]
    (by decide) (by decide) (by decide) (by decide) (by decide)
